import Mathlib

/-!
Verification of the job lifecycle and serialization layer of a FastAPI
service (`backend/app.py`) that wraps the external `boltz` structure
prediction tool.  The Python code is shallowly embedded: Pydantic models
become Lean structures (with the same field defaults), JSON/YAML values
become the `PyVal` type, fallible Python code returns `Except`, and the
impure clock readings of `generate_job_id` become explicit parameters.
-/

namespace BoltzApp

/-- Embedding of Python/JSON values as they appear in this service: JSON
parsed from result files, and the structured document handed to
`yaml.dump`.  Floats are modelled as rationals (no NaN/Inf appear in the
claims under study). -/
inductive PyVal where
  | pynone
  | bool (b : Bool)
  | int (n : Int)
  | float (q : ℚ)
  | str (s : String)
  | list (xs : List PyVal)
  | dict (kvs : List (String × PyVal))

/-- Python truthiness (`bool(v)`) for the embedded values. -/
def pyTruthy : PyVal → Bool
  | .pynone => false
  | .bool b => b
  | .int n => n ≠ 0
  | .float q => q ≠ 0
  | .str s => s ≠ ""
  | .list xs => ¬ xs.isEmpty
  | .dict kvs => ¬ kvs.isEmpty

/-- Python `isinstance(v, dict)`. -/
def PyVal.isDict : PyVal → Bool
  | .dict _ => true
  | _ => false

/-- Python `isinstance(v, list)`. -/
def PyVal.isList : PyVal → Bool
  | .list _ => true
  | _ => false

/-- Key lookup in an embedded dict body (`d[k]` / `k in d`). -/
def dictGet (kvs : List (String × PyVal)) (k : String) : Option PyVal :=
  kvs.lookup k

/-- Keys of a serialized mapping block, in emission order. -/
def keysOf (kvs : List (String × PyVal)) : List String :=
  kvs.map Prod.fst

/-! ### Request data model (the Pydantic classes, with their defaults) -/

/-- Chemical modification of one residue (`Modification`). -/
structure Modification where
  position : Int
  ccd : String

/-- A chain identifier union `Union[str, List[str]]`. -/
abbrev EntityId := Sum String (List String)

/-- One biological entity of a request (`SequenceEntity`).  The field
defaults mirror the Pydantic declaration: every optional field defaults
to `None` except `cyclic`, whose declared default is `False` (that is,
`some false` here — the value an entity carries when the request leaves
the field unset). -/
structure SequenceEntity where
  entity_type : String
  id : EntityId
  sequence : Option String := Option.none
  smiles : Option String := Option.none
  ccd : Option String := Option.none
  msa : Option String := Option.none
  modifications : Option (List Modification) := Option.none
  cyclic : Option Bool := Option.some false

/-- A `[CHAIN, RESIDUE, ATOM]` style token: strings and ints mixed. -/
abbrev AtomRef := List (Sum String Int)

/-- Forced bond between two atoms (`BondConstraint`). -/
structure BondConstraint where
  atom1 : AtomRef
  atom2 : AtomRef

/-- Binding-pocket proximity constraint (`PocketConstraint`). -/
structure PocketConstraint where
  binder : String
  contacts : List AtomRef
  max_distance : Option ℚ := Option.none

/-- Pairwise contact constraint (`ContactConstraint`). -/
structure ContactConstraint where
  token1 : AtomRef
  token2 : AtomRef
  max_distance : Option ℚ := Option.none

/-- Container holding at most one populated constraint kind
(`Constraint`). -/
structure Constraint where
  bond : Option BondConstraint := Option.none
  pocket : Option PocketConstraint := Option.none
  contact : Option ContactConstraint := Option.none

/-- Reference 3-D structure (`Template`). -/
structure Template where
  cif : String
  chain_id : Option EntityId := Option.none
  template_id : Option (List String) := Option.none

/-- Affinity computation configuration (`AffinityProperty`). -/
structure AffinityProperty where
  binder : String

/-- Property container (`Property`). -/
structure Property where
  affinity : Option AffinityProperty := Option.none

/-- A complete prediction request (`BoltzRequest`). -/
structure BoltzRequest where
  sequences : List SequenceEntity
  constraints : Option (List Constraint) := Option.none
  templates : Option (List Template) := Option.none
  properties : Option (List Property) := Option.none
  job_name : Option String := Option.none
  version : Int := 1

/-! ### Configuration serializer: the YAML document built by `predict_boltz`
(lines 391–490 of `app.py`), modelled structurally (the `yaml_data` dict
before `yaml.dump` renders it). -/

/-- Embedding of a `Union[str, List[str]]` identifier into a value. -/
def pyOfId : EntityId → PyVal
  | .inl s => .str s
  | .inr l => .list (l.map .str)

/-- Embedding of one atom token list. -/
def pyOfAtomRef (a : AtomRef) : PyVal :=
  .list (a.map fun t => match t with | .inl s => .str s | .inr n => .int n)

/-- The serializer's emission test for a string-valued optional field:
`value is not None and value != ""`. -/
def strFieldEmitted : Option String → Bool
  | Option.none => false
  | Option.some s => s ≠ ""

/-- Entity block body built by the sequence loop of `predict_boltz`:
`id` first, then each of `sequence, smiles, ccd, msa, cyclic` exactly
when `value is not None and value != ""` (for the boolean `cyclic`,
`value != ""` always holds in Python, so the test degenerates to
`is not None`), then `modifications` when truthy. -/
def entityFields (e : SequenceEntity) : List (String × PyVal) :=
  [("id", pyOfId e.id)]
  ++ (match e.sequence with
      | Option.some s => if s ≠ "" then [("sequence", .str s)] else []
      | Option.none => [])
  ++ (match e.smiles with
      | Option.some s => if s ≠ "" then [("smiles", .str s)] else []
      | Option.none => [])
  ++ (match e.ccd with
      | Option.some s => if s ≠ "" then [("ccd", .str s)] else []
      | Option.none => [])
  ++ (match e.msa with
      | Option.some s => if s ≠ "" then [("msa", .str s)] else []
      | Option.none => [])
  ++ (match e.cyclic with
      | Option.some b => [("cyclic", .bool b)]
      | Option.none => [])
  ++ (match e.modifications with
      | Option.some ms =>
        if ¬ ms.isEmpty then
          [("modifications",
            .list (ms.map fun m =>
              .dict [("position", .int m.position), ("ccd", .str m.ccd)]))]
        else []
      | Option.none => [])

/-- An entity's whole block: `{entity_type: {...fields...}}`. -/
def entityBlock (e : SequenceEntity) : String × PyVal :=
  (e.entity_type, .dict (entityFields e))

/-- Body of a serialized bond constraint. -/
def bondDict (b : BondConstraint) : List (String × PyVal) :=
  [("atom1", pyOfAtomRef b.atom1), ("atom2", pyOfAtomRef b.atom2)]

/-- Body of a serialized pocket constraint.  `max_distance` is appended
only when `if constraint.pocket.max_distance:` holds, i.e. when the
field is neither `None` nor the (falsy) number zero. -/
def pocketDict (p : PocketConstraint) : List (String × PyVal) :=
  let base := [("binder", .str p.binder),
               ("contacts", .list (p.contacts.map pyOfAtomRef))]
  match p.max_distance with
  | Option.some q => if q ≠ 0 then base ++ [("max_distance", .float q)] else base
  | Option.none => base

/-- Body of a serialized contact constraint, with the same truthiness
test on `max_distance`. -/
def contactDict (t : ContactConstraint) : List (String × PyVal) :=
  let base := [("token1", pyOfAtomRef t.token1),
               ("token2", pyOfAtomRef t.token2)]
  match t.max_distance with
  | Option.some q => if q ≠ 0 then base ++ [("max_distance", .float q)] else base
  | Option.none => base

/-- Serialization of one constraint entry: the `if/elif/elif` chain of
`predict_boltz` gives `bond` priority, then `pocket`, then `contact`;
an entry with none populated leaves `constraint_dict` empty, and the
trailing `if constraint_dict:` then drops it (`none` here). -/
def serializeConstraint (c : Constraint) : Option (List (String × PyVal)) :=
  match c.bond with
  | Option.some b => Option.some [("bond", .dict (bondDict b))]
  | Option.none =>
    match c.pocket with
    | Option.some p => Option.some [("pocket", .dict (pocketDict p))]
    | Option.none =>
      match c.contact with
      | Option.some t => Option.some [("contact", .dict (contactDict t))]
      | Option.none => Option.none

/-- The `yaml_data["constraints"]` list: serialized entries in request
order, empty-entry items dropped. -/
def serializeConstraints (cs : List Constraint) : List (List (String × PyVal)) :=
  cs.filterMap serializeConstraint

/-! ### External command construction (lines 560–568 of `app.py`) -/

/-- The test `seq.msa and seq.msa.strip() and seq.msa != "empty"` for one
entity: the entity carries a usable pre-supplied alignment reference
exactly when its `msa` value is set, non-empty, non-blank after
stripping, and not the literal sentinel `"empty"`. -/
def carriesAlignmentReference (e : SequenceEntity) : Bool :=
  match e.msa with
  | Option.none => false
  | Option.some s => s ≠ "" && s.trim ≠ "" && s ≠ "empty"

/-- The `has_msa_files` flag of `predict_boltz`. -/
def has_msa_files (req : BoltzRequest) : Bool :=
  req.sequences.any carriesAlignmentReference

/-- The external command line built by `predict_boltz`: the base
invocation, then `--use_msa_server` exactly when no entity supplies an
alignment, then the output format arguments. -/
def buildCmd (req : BoltzRequest) : List String :=
  ["boltz", "predict", "boltz_input.yaml", "--out_dir", "boltz_output"]
  ++ (if has_msa_files req then [] else ["--use_msa_server"])
  ++ ["--output_format", "pdb"]

/-! ### Key-membership characterization for entity blocks -/

/-- The emission test for the `modifications` field (`if seq.modifications:`,
list truthiness). -/
def modsEmitted : Option (List Modification) → Bool
  | Option.none => false
  | Option.some ms => ¬ ms.isEmpty

set_option maxHeartbeats 2000000 in
lemma mem_keys_entityFields (e : SequenceEntity) (k : String) :
    k ∈ keysOf (entityFields e) ↔
      k = "id"
      ∨ (k = "sequence" ∧ strFieldEmitted e.sequence)
      ∨ (k = "smiles" ∧ strFieldEmitted e.smiles)
      ∨ (k = "ccd" ∧ strFieldEmitted e.ccd)
      ∨ (k = "msa" ∧ strFieldEmitted e.msa)
      ∨ (k = "cyclic" ∧ e.cyclic.isSome)
      ∨ (k = "modifications" ∧ modsEmitted e.modifications) := by
  obtain ⟨et, eid, sq, sm, cc, ms, mo, cy⟩ := e
  simp only [entityFields, keysOf, strFieldEmitted, modsEmitted]
  cases sq <;> cases sm <;> cases cc <;> cases ms <;> cases mo <;> cases cy <;>
    simp [List.mem_append] <;> tauto

end BoltzApp

namespace BoltzApp

/-! ## Claim C2 -/

/-- C2 counterexample: the entity below leaves every optional field unset,
so each takes its declared Pydantic default — which for `cyclic` is
`False`, not `None`.  The serializer's `value is not None and value != ""`
test holds for `False`, so the generated block for this entity carries a
`cyclic` key even though the request never set the field, contradicting
the claim that an unset optional field never emits its key. -/
theorem C2_counterexample_cyclic_emitted :
    "cyclic" ∈ keysOf (entityFields { entity_type := "protein", id := Sum.inl "A" }) := by
  decide

/-- C2 (amended): for the optional fields `sequence`, `smiles`, `ccd`,
`msa` and `modifications` (default `None`), an unset field's key is never
emitted in the entity's block; the `cyclic` field however defaults to
`False` and its key is emitted exactly when the stored value is not
`None` — in particular an entity whose `cyclic` field is unset in the
request serializes with an explicit `cyclic: false` entry. -/
theorem C2_optional_field_omission (e : SequenceEntity) :
    (e.sequence = Option.none → "sequence" ∉ keysOf (entityFields e))
    ∧ (e.smiles = Option.none → "smiles" ∉ keysOf (entityFields e))
    ∧ (e.ccd = Option.none → "ccd" ∉ keysOf (entityFields e))
    ∧ (e.msa = Option.none → "msa" ∉ keysOf (entityFields e))
    ∧ (e.modifications = Option.none → "modifications" ∉ keysOf (entityFields e))
    ∧ (e.cyclic = Option.none → "cyclic" ∉ keysOf (entityFields e))
    ∧ (e.cyclic.isSome → "cyclic" ∈ keysOf (entityFields e)) := by
  refine ⟨?_, ?_, ?_, ?_, ?_, ?_, ?_⟩ <;> intro h <;>
    simp [mem_keys_entityFields, h, strFieldEmitted, modsEmitted]

/-- C2 witness: the amended theorem applied to a concrete ligand whose
optional fields are all unset and whose `cyclic` is explicitly `None`. -/
theorem C2_witness :
    ("sequence" ∉ keysOf (entityFields
        { entity_type := "ligand", id := Sum.inl "L", cyclic := Option.none }))
    ∧ ("cyclic" ∉ keysOf (entityFields
        { entity_type := "ligand", id := Sum.inl "L", cyclic := Option.none })) :=
  ⟨(C2_optional_field_omission _).1 rfl,
   (C2_optional_field_omission
      { entity_type := "ligand", id := Sum.inl "L", cyclic := Option.none }).2.2.2.2.2.1 rfl⟩

/-! ## Claim C3 -/

/-- C3: a constraint entry with exactly one of `bond`, `pocket`,
`contact` populated contributes to the serialized constraints list a
single mapping holding exactly that one key, in place; an entry with
none of the three populated is dropped from the list entirely (the
serialization of the surrounding request is as if the entry were not
there), and no error is raised (the serializer is a total function). -/
theorem C3_constraint_serialization (c : Constraint) (pre post : List Constraint) :
    (c.bond.isSome ∧ c.pocket = Option.none ∧ c.contact = Option.none →
      ∃ d, serializeConstraint c = Option.some d ∧ keysOf d = ["bond"] ∧
        serializeConstraints (pre ++ c :: post) =
          serializeConstraints pre ++ d :: serializeConstraints post)
    ∧ (c.bond = Option.none ∧ c.pocket.isSome ∧ c.contact = Option.none →
      ∃ d, serializeConstraint c = Option.some d ∧ keysOf d = ["pocket"] ∧
        serializeConstraints (pre ++ c :: post) =
          serializeConstraints pre ++ d :: serializeConstraints post)
    ∧ (c.bond = Option.none ∧ c.pocket = Option.none ∧ c.contact.isSome →
      ∃ d, serializeConstraint c = Option.some d ∧ keysOf d = ["contact"] ∧
        serializeConstraints (pre ++ c :: post) =
          serializeConstraints pre ++ d :: serializeConstraints post)
    ∧ (c.bond = Option.none ∧ c.pocket = Option.none ∧ c.contact = Option.none →
      serializeConstraints (pre ++ c :: post) = serializeConstraints (pre ++ post)) := by
  obtain ⟨cb, cp, cc⟩ := c
  refine ⟨?_, ?_, ?_, ?_⟩ <;> rintro ⟨h1, h2, h3⟩ <;>
    cases cb <;> cases cp <;> cases cc <;> simp_all [serializeConstraint,
      serializeConstraints, keysOf, List.filterMap_append]

/-- C3 witness: the theorem applied to a concrete bond-only constraint
standing alone in the list. -/
theorem C3_witness :
    ∃ d, serializeConstraint
        { bond := Option.some { atom1 := [Sum.inl "A"], atom2 := [Sum.inl "B"] } } =
          Option.some d
      ∧ keysOf d = ["bond"]
      ∧ serializeConstraints ([] ++
          { bond := Option.some { atom1 := [Sum.inl "A"], atom2 := [Sum.inl "B"] } } :: []) =
          serializeConstraints [] ++ d :: serializeConstraints [] :=
  (C3_constraint_serialization
      { bond := Option.some { atom1 := [Sum.inl "A"], atom2 := [Sum.inl "B"] } } [] []).1
    ⟨rfl, rfl, rfl⟩

/-! ## Claim C10 -/

/-- C10: a pocket or contact constraint whose `max_distance` is the
number `0` serializes exactly as if the field were unset (`None`), and
the `max_distance` key appears in the serialized body if and only if the
field is set to a non-zero value — the Python guard
`if constraint.pocket.max_distance:` treats both `None` and `0.0` as
falsy. -/
theorem C10_max_distance_zero_omitted (p : PocketConstraint) (t : ContactConstraint) :
    (pocketDict { p with max_distance := Option.some 0 } =
      pocketDict { p with max_distance := Option.none })
    ∧ (contactDict { t with max_distance := Option.some 0 } =
      contactDict { t with max_distance := Option.none })
    ∧ ("max_distance" ∈ keysOf (pocketDict p) ↔
        ∃ q, p.max_distance = Option.some q ∧ q ≠ 0)
    ∧ ("max_distance" ∈ keysOf (contactDict t) ↔
        ∃ q, t.max_distance = Option.some q ∧ q ≠ 0) := by
  obtain ⟨pb, pc, pm⟩ := p
  obtain ⟨t1, t2, tm⟩ := t
  refine ⟨by simp [pocketDict], by simp [contactDict], ?_, ?_⟩ <;>
    [cases pm; cases tm] <;> simp [pocketDict, contactDict, keysOf] <;>
    split_ifs <;> simp_all [keysOf]

/-! ## Result formatters (`format_affinity_results`,
`format_confidence_results`): fallible Python code is embedded in
`Except String`, an `error` value standing for a raised exception. -/

/-- Numeric reading of a value as Python arithmetic sees it (`bool`
counts as an int). -/
def toRatNum : PyVal → Option ℚ
  | .bool b => Option.some (if b then 1 else 0)
  | .int n => Option.some (n : ℚ)
  | .float q => Option.some q
  | _ => Option.none

/-- Whether Python arithmetic accepts the value as a number. -/
def isNumericVal (v : PyVal) : Bool := (toRatNum v).isSome

/-- Python `+` on the operand shapes reachable from `sum`: two numbers
add (`int`-ness preserved, `bool` counting as `int`); any other pair
raises a `TypeError`. -/
def pyAdd (a b : PyVal) : Except String PyVal :=
  match a, b with
  | .int x, .int y => .ok (.int (x + y))
  | .int x, .bool y => .ok (.int (x + if y then 1 else 0))
  | .bool x, .int y => .ok (.int ((if x then 1 else 0) + y))
  | .bool x, .bool y => .ok (.int ((if x then 1 else 0) + (if y then 1 else 0)))
  | .int x, .float q => .ok (.float ((x : ℚ) + q))
  | .float q, .int x => .ok (.float (q + (x : ℚ)))
  | .float p, .float q => .ok (.float (p + q))
  | .bool x, .float q => .ok (.float ((if x then (1 : ℚ) else 0) + q))
  | .float q, .bool x => .ok (.float (q + (if x then (1 : ℚ) else 0)))
  | _, _ => .error "unsupported operand type(s) for +"

/-- Python `sum(xs)`: a left fold of `+` starting from the int `0`. -/
def pySum (xs : List PyVal) : Except String PyVal :=
  xs.foldlM pyAdd (.int 0)

/-- Python `<` on the shapes `min`/`max` meet: numbers compare
numerically, two strings lexicographically, anything else raises. -/
def pyLt (a b : PyVal) : Except String Bool :=
  match toRatNum a, toRatNum b with
  | Option.some x, Option.some y => .ok (decide (x < y))
  | _, _ =>
    match a, b with
    | .str s, .str t => .ok (decide (s < t))
    | _, _ => .error "'<' not supported between operands"

/-- Python `min(xs)`: first element, improved by strict `<`. -/
def pyMin : List PyVal → Except String PyVal
  | [] => .error "min() arg is an empty sequence"
  | x :: xs =>
    xs.foldlM (fun m y => Except.map (fun lt => if lt then y else m) (pyLt y m)) x

/-- Python `max(xs)`: first element, improved by strict `<`. -/
def pyMax : List PyVal → Except String PyVal
  | [] => .error "max() arg is an empty sequence"
  | x :: xs =>
    xs.foldlM (fun m y => Except.map (fun lt => if lt then y else m) (pyLt m y)) x

/-- Embedding of `format_affinity_results`: `None` for falsy or non-dict
input, otherwise a `summary`/`detailed` pair lifting the three key
metrics that are present.  The function touches no nested content, so it
is total (always `ok`). -/
def format_affinity_results (data : PyVal) : Except String (Option PyVal) :=
  match data with
  | .dict kvs =>
    if kvs.isEmpty then .ok Option.none
    else
      let summary :=
        ([("affinity", "binding_affinity"),
          ("affinity_confidence", "confidence"),
          ("units", "units")] : List (String × String)).filterMap
          (fun p => (dictGet kvs p.1).map (fun v => (p.2, v)))
      .ok (Option.some (.dict [("summary", .dict summary), ("detailed", data)]))
  | _ => .ok Option.none

/-- Mean/min/max statistics over a confidence dict's `per_residue`
value, computed — as the source does — with Python `sum`, `min` and
`max` (which raise on non-numeric content), guarded by
`isinstance(per_res, list) and per_res`.  The mean is the true division
`sum(per_res) / len(per_res)`; the summand is numeric whenever `pySum`
succeeds, so the `getD 0` default is never consulted. -/
def perResidueStats (cs : List (String × PyVal)) : Except String (List (String × PyVal)) :=
  match dictGet cs "per_residue" with
  | Option.some (.list per) =>
    if ¬ per.isEmpty then
      (pySum per).bind fun s =>
        (pyMin per).bind fun mn =>
          Except.map (fun mx =>
            [("mean_confidence", .float ((toRatNum s).getD 0 / (per.length : ℚ))),
             ("min_confidence", mn), ("max_confidence", mx)]) (pyMax per)
    else .ok []
  | _ => .ok []

/-- The `overall_confidence` part of the summary. -/
def overallPart (cs : List (String × PyVal)) : List (String × PyVal) :=
  match dictGet cs "overall" with
  | Option.some v => [("overall_confidence", v)]
  | Option.none => []

/-- Embedding of `format_confidence_results`: `None` for falsy or
non-dict input; a dict-shaped `confidence` value contributes an optional
`overall_confidence` and, when `per_residue` is a non-empty list, the
`perResidueStats` block (which can raise); a non-dict `confidence`
value is copied to `confidence_score`. -/
def format_confidence_results (data : PyVal) : Except String (Option PyVal) :=
  match data with
  | .dict kvs =>
    if kvs.isEmpty then .ok Option.none
    else
      match dictGet kvs "confidence" with
      | Option.none =>
        .ok (Option.some (.dict [("summary", .dict []), ("detailed", data)]))
      | Option.some conf =>
        match conf with
        | .dict cs =>
          Except.map (fun s2 =>
            Option.some (.dict [("summary", .dict (overallPart cs ++ s2)),
              ("detailed", data)])) (perResidueStats cs)
        | _ =>
          .ok (Option.some (.dict [("summary", .dict [("confidence_score", conf)]),
            ("detailed", data)]))
  | _ => .ok Option.none

/-- Numeric content of the `per_residue` array at one confidence dict. -/
def perNumericAt (cs : List (String × PyVal)) : Bool :=
  match dictGet cs "per_residue" with
  | Option.some (.list per) => per.all isNumericVal
  | _ => true

/-- Guard predicate of the amended claim C5: whenever a `per_residue`
list is reachable by the formatter, all of its elements are numeric. -/
def perResidueNumeric (v : PyVal) : Bool :=
  match v with
  | .dict kvs =>
    match dictGet kvs "confidence" with
    | Option.some (.dict cs) => perNumericAt cs
    | _ => true
  | _ => true

lemma exceptOk_bind {ε α β : Type} (a : α) (f : α → Except ε β) :
    (Except.ok a : Except ε α).bind f = f a := rfl

lemma pyAdd_numeric {a b : PyVal} (ha : isNumericVal a) (hb : isNumericVal b) :
    ∃ c, pyAdd a b = .ok c ∧ isNumericVal c := by
  cases a <;> cases b <;> simp_all [pyAdd, isNumericVal, toRatNum]

/-- Any left fold of a numeric-preserving, never-failing step succeeds on
an all-numeric list. -/
lemma foldlM_numeric_ok (f : PyVal → PyVal → Except String PyVal)
    (hf : ∀ a b, isNumericVal a → isNumericVal b → ∃ c, f a b = .ok c ∧ isNumericVal c) :
    ∀ (xs : List PyVal), (∀ x ∈ xs, isNumericVal x) →
      ∀ acc, isNumericVal acc → ∃ s, xs.foldlM f acc = .ok s ∧ isNumericVal s := by
  intro xs
  induction xs with
  | nil => exact fun _ acc hacc => ⟨acc, rfl, hacc⟩
  | cons x xs ih =>
    intro h acc hacc
    obtain ⟨c, hc, hcn⟩ := hf acc x hacc (h x (List.mem_cons_self x xs))
    obtain ⟨s, hs, hsn⟩ := ih (fun y hy => h y (List.mem_cons_of_mem x hy)) c hcn
    refine ⟨s, ?_, hsn⟩
    rw [List.foldlM_cons, hc]
    exact hs

lemma pySum_ok {xs : List PyVal} (h : ∀ x ∈ xs, isNumericVal x) :
    ∃ s, pySum xs = .ok s ∧ isNumericVal s :=
  foldlM_numeric_ok pyAdd (fun _ _ ha hb => pyAdd_numeric ha hb) xs h (.int 0) rfl

lemma pyLt_numeric {a b : PyVal} (ha : isNumericVal a) (hb : isNumericVal b) :
    ∃ r, pyLt a b = .ok r := by
  unfold isNumericVal at ha hb
  unfold pyLt
  obtain ⟨x, hx⟩ := Option.isSome_iff_exists.mp ha
  obtain ⟨y, hy⟩ := Option.isSome_iff_exists.mp hb
  rw [hx, hy]
  exact ⟨_, rfl⟩

lemma pyMin_ok {x : PyVal} {xs : List PyVal}
    (h : ∀ y ∈ x :: xs, isNumericVal y) : ∃ m, pyMin (x :: xs) = .ok m := by
  unfold pyMin
  obtain ⟨m, hm, _⟩ := foldlM_numeric_ok
    (fun m y => Except.map (fun lt => if lt then y else m) (pyLt y m))
    (fun a b ha hb => by
      obtain ⟨r, hr⟩ := pyLt_numeric hb ha
      exact ⟨if r then b else a, by simp only [hr]; rfl, by cases r <;> simpa⟩)
    xs (fun y hy => h y (List.mem_cons_of_mem x hy)) x (h x (List.mem_cons_self x xs))
  exact ⟨m, hm⟩

lemma pyMax_ok {x : PyVal} {xs : List PyVal}
    (h : ∀ y ∈ x :: xs, isNumericVal y) : ∃ m, pyMax (x :: xs) = .ok m := by
  unfold pyMax
  obtain ⟨m, hm, _⟩ := foldlM_numeric_ok
    (fun m y => Except.map (fun lt => if lt then y else m) (pyLt m y))
    (fun a b ha hb => by
      obtain ⟨r, hr⟩ := pyLt_numeric ha hb
      exact ⟨if r then b else a, by simp only [hr]; rfl, by cases r <;> simpa⟩)
    xs (fun y hy => h y (List.mem_cons_of_mem x hy)) x (h x (List.mem_cons_self x xs))
  exact ⟨m, hm⟩

lemma perResidueStats_ok {cs : List (String × PyVal)} (h : perNumericAt cs = true) :
    ∃ l, perResidueStats cs = .ok l := by
  unfold perNumericAt at h
  unfold perResidueStats
  match hper : dictGet cs "per_residue" with
  | Option.none => exact ⟨_, rfl⟩
  | Option.some .pynone | Option.some (.bool _) | Option.some (.int _)
  | Option.some (.float _) | Option.some (.str _) | Option.some (.dict _) =>
    exact ⟨_, rfl⟩
  | Option.some (.list per) =>
    rw [hper] at h
    replace h : per.all isNumericVal = true := h
    have hall : ∀ y ∈ per, isNumericVal y := by simpa [List.all_eq_true] using h
    by_cases hpe : per.isEmpty
    · simp [hpe]
    · match per, hpe, hall with
      | x :: xs, _, hall =>
        obtain ⟨s, hs, _⟩ := pySum_ok hall
        obtain ⟨mn, hmn⟩ := pyMin_ok hall
        obtain ⟨mx, hmx⟩ := pyMax_ok hall
        refine ⟨[("mean_confidence",
            .float ((toRatNum s).getD 0 / (((x :: xs).length : ℚ)))),
          ("min_confidence", mn), ("max_confidence", mx)], ?_⟩
        simp [hs, hmn, hmx, exceptOk_bind, Except.map]

/-- Unfolding equation for `format_confidence_results` at a truthy dict
whose `confidence` entry is itself a dict. -/
lemma format_confidence_eq_of_conf_dict {kvs cs : List (String × PyVal)}
    (hconf : dictGet kvs "confidence" = Option.some (.dict cs))
    (hkvs : kvs.isEmpty = false) :
    format_confidence_results (.dict kvs) =
      Except.map (fun s2 =>
        Option.some (.dict [("summary", .dict (overallPart cs ++ s2)),
          ("detailed", .dict kvs)])) (perResidueStats cs) := by
  simp only [format_confidence_results]
  rw [hkvs, hconf]
  rfl

/-! ## Claim C5 -/

/-- C5 counterexample: a well-shaped confidence payload whose
`per_residue` array holds a string makes `format_confidence_results`
raise a `TypeError` (here, an `error` value) from `sum(["x"])`, rather
than returning an absent summary as the claim asserts. -/
theorem C5_counterexample_per_residue_string :
    format_confidence_results
        (.dict [("confidence", .dict [("per_residue", .list [.str "x"])])]) =
      .error "unsupported operand type(s) for +" := rfl

/-- C5 (amended): `format_affinity_results` never raises on any input,
and `format_confidence_results` returns the absent summary (`None`)
without raising on any falsy or non-dict input; but on a dict whose
`confidence.per_residue` is a non-empty list, `format_confidence_results`
raises unless every element is numeric — with all-numeric content (the
guard `perResidueNumeric`) it never raises. -/
theorem C5_formatters_fail_soft (v : PyVal) :
    (∃ r, format_affinity_results v = .ok r)
    ∧ (perResidueNumeric v = true → ∃ r, format_confidence_results v = .ok r)
    ∧ ((pyTruthy v = false ∨ v.isDict = false) →
        format_affinity_results v = .ok Option.none
        ∧ format_confidence_results v = .ok Option.none) := by
  refine ⟨?_, ?_, ?_⟩
  · match v with
    | .pynone | .bool _ | .int _ | .float _ | .str _ | .list _ => exact ⟨Option.none, rfl⟩
    | .dict kvs =>
      unfold format_affinity_results
      by_cases hkvs : kvs.isEmpty <;> simp [hkvs]
  · intro hnum
    match v with
    | .pynone | .bool _ | .int _ | .float _ | .str _ | .list _ =>
      exact ⟨Option.none, rfl⟩
    | .dict kvs =>
      by_cases hkvs : kvs.isEmpty
      · exact ⟨Option.none, by simp [format_confidence_results, hkvs]⟩
      · have hkf : kvs.isEmpty = false := by simpa using hkvs
        unfold perResidueNumeric at hnum
        replace hnum : (match dictGet kvs "confidence" with
          | Option.some (.dict cs) => perNumericAt cs
          | _ => true) = true := hnum
        match hconf : dictGet kvs "confidence" with
        | Option.none =>
          exact ⟨_, by simp only [format_confidence_results]; rw [hkf, hconf]; rfl⟩
        | Option.some .pynone | Option.some (.bool _) | Option.some (.int _)
        | Option.some (.float _) | Option.some (.str _) | Option.some (.list _) =>
          exact ⟨_, by simp only [format_confidence_results]; rw [hkf, hconf]; rfl⟩
        | Option.some (.dict cs) =>
          rw [hconf] at hnum
          replace hnum : perNumericAt cs = true := hnum
          obtain ⟨l, hl⟩ := perResidueStats_ok hnum
          exact ⟨_, by rw [format_confidence_eq_of_conf_dict hconf hkf, hl]; rfl⟩
  · intro hv
    match v, hv with
    | .pynone, _ | .bool _, _ | .int _, _ | .float _, _ | .str _, _ | .list _, _ =>
      exact ⟨rfl, rfl⟩
    | .dict kvs, hv =>
      have hkvs : kvs.isEmpty := by
        rcases hv with h | h
        · simpa [pyTruthy] using h
        · simp [PyVal.isDict] at h
      exact ⟨by simp [format_affinity_results, hkvs],
             by simp [format_confidence_results, hkvs]⟩

/-- C5 witness: the amended theorem applied to a numeric per-residue
payload and to the falsy non-dict input `0`. -/
theorem C5_witness :
    (∃ r, format_confidence_results
        (.dict [("confidence", .dict [("per_residue",
          .list [.float (2/10), .float (4/10), .float (6/10)])])]) = .ok r)
    ∧ (format_affinity_results (.int 0) = .ok Option.none
        ∧ format_confidence_results (.int 0) = .ok Option.none) :=
  ⟨(C5_formatters_fail_soft _).2.1 rfl,
   (C5_formatters_fail_soft (.int 0)).2.2 (Or.inr rfl)⟩

/-! ## Job identity: `generate_job_id` and a full MD5 (RFC 1321)
embedding.  The two clock readings of the Python function — the
seconds-resolution formatted timestamp and the `microsecond` attribute of
a second `datetime.now()` call — become explicit parameters. -/

/-- Left rotation of a 32-bit word. -/
def rotl32 (x n : Nat) : Nat := ((x <<< n) ||| (x >>> (32 - n))) % 4294967296

/-- Bitwise complement on 32-bit words. -/
def notw (x : Nat) : Nat := x ^^^ 4294967295

/-- The 64 MD5 sine-derived constants `floor(|sin(i+1)| * 2^32)`. -/
def md5K : List Nat :=
  [3614090360, 3905402710, 606105819, 3250441966,
   4118548399, 1200080426, 2821735955, 4249261313,
   1770035416, 2336552879, 4294925233, 2304563134,
   1804603682, 4254626195, 2792965006, 1236535329,
   4129170786, 3225465664, 643717713, 3921069994,
   3593408605, 38016083, 3634488961, 3889429448,
   568446438, 3275163606, 4107603335, 1163531501,
   2850285829, 4243563512, 1735328473, 2368359562,
   4294588738, 2272392833, 1839030562, 4259657740,
   2763975236, 1272893353, 4139469664, 3200236656,
   681279174, 3936430074, 3572445317, 76029189,
   3654602809, 3873151461, 530742520, 3299628645,
   4096336452, 1126891415, 2878612391, 4237533241,
   1700485571, 2399980690, 4293915773, 2240044497,
   1873313359, 4264355552, 2734768916, 1309151649,
   4149444226, 3174756917, 718787259, 3951481745]

/-- The per-round left-rotation amounts of MD5. -/
def md5S : List Nat :=
  [7, 12, 17, 22, 7, 12, 17, 22, 7, 12, 17, 22, 7, 12, 17, 22,
   5, 9, 14, 20, 5, 9, 14, 20, 5, 9, 14, 20, 5, 9, 14, 20,
   4, 11, 16, 23, 4, 11, 16, 23, 4, 11, 16, 23, 4, 11, 16, 23,
   6, 10, 15, 21, 6, 10, 15, 21, 6, 10, 15, 21, 6, 10, 15, 21]

/-- The four 32-bit registers of the MD5 state. -/
structure MD5State where
  a : Nat
  b : Nat
  c : Nat
  d : Nat

/-- One of the 64 mixing rounds over a 16-word message block. -/
def md5Round (M : List Nat) (st : MD5State) (i : Nat) : MD5State :=
  let fg :=
    if i < 16 then ((st.b &&& st.c) ||| (notw st.b &&& st.d), i)
    else if i < 32 then ((st.d &&& st.b) ||| (notw st.d &&& st.c), (5 * i + 1) % 16)
    else if i < 48 then (st.b ^^^ st.c ^^^ st.d, (3 * i + 5) % 16)
    else (st.c ^^^ (st.b ||| notw st.d), (7 * i) % 16)
  let tmp := (st.a + fg.1 + md5K.getD i 0 + M.getD fg.2 0) % 4294967296
  { a := st.d, b := (st.b + rotl32 tmp (md5S.getD i 0)) % 4294967296,
    c := st.b, d := st.c }

/-- Processing of one 64-byte chunk (little-endian word decoding, 64
rounds, then accumulation into the running state). -/
def md5Chunk (st : MD5State) (chunk : List Nat) : MD5State :=
  let M := (List.range 16).map (fun j =>
    chunk.getD (4 * j) 0 + 256 * chunk.getD (4 * j + 1) 0
      + 65536 * chunk.getD (4 * j + 2) 0 + 16777216 * chunk.getD (4 * j + 3) 0)
  let r := (List.range 64).foldl (md5Round M) st
  { a := (st.a + r.a) % 4294967296, b := (st.b + r.b) % 4294967296,
    c := (st.c + r.c) % 4294967296, d := (st.d + r.d) % 4294967296 }

/-- Merkle–Damgård padding: `0x80`, zeros to 56 mod 64, then the bit
length as a 64-bit little-endian quantity. -/
def md5Pad (msg : List Nat) : List Nat :=
  let len := msg.length
  let bitLen := (8 * len) % 18446744073709551616
  msg ++ [128] ++ List.replicate ((119 - len % 64) % 64) 0
    ++ (List.range 8).map (fun j => (bitLen >>> (8 * j)) % 256)

/-- Fuel-indexed 64-byte chunking (structural recursion so that the
kernel can evaluate it; the fuel `l.length` always suffices). -/
def chunksAux : Nat → List Nat → List (List Nat)
  | _, [] => []
  | 0, _ :: _ => []
  | fuel + 1, x :: xs => ((x :: xs).take 64) :: chunksAux fuel ((x :: xs).drop 64)

/-- Splitting of a padded message into 64-byte chunks. -/
def chunks64 (l : List Nat) : List (List Nat) := chunksAux l.length l

/-- The MD5 initialization vector. -/
def md5Init : MD5State := ⟨1732584193, 4023233417, 2562383102, 271733878⟩

/-- MD5 digest of a byte string, as 16 bytes. -/
def md5Bytes (msg : List Nat) : List Nat :=
  let st := (chunks64 (md5Pad msg)).foldl md5Chunk md5Init
  (([st.a, st.b, st.c, st.d].map
    (fun w => (List.range 4).map (fun j => (w >>> (8 * j)) % 256))).flatten)

/-- UTF-8 encoding of one character (`str.encode()` in the source). -/
def utf8Bytes (c : Char) : List Nat :=
  let n := c.toNat
  if n < 128 then [n]
  else if n < 2048 then [192 + n / 64, 128 + n % 64]
  else if n < 65536 then [224 + n / 4096, 128 + (n / 64) % 64, 128 + n % 64]
  else [240 + n / 262144, 128 + (n / 4096) % 64, 128 + (n / 64) % 64, 128 + n % 64]

/-- UTF-8 bytes of a string. -/
def strBytes (s : String) : List Nat := (s.data.map utf8Bytes).flatten

/-- A lowercase hexadecimal digit. -/
def hexChar (n : Nat) : Char := if n < 10 then Char.ofNat (48 + n) else Char.ofNat (87 + n)

/-- Lowercase hex digest of a string — `hashlib.md5(s.encode()).hexdigest()`. -/
def md5Hex (s : String) : String :=
  String.mk (((md5Bytes (strBytes s)).map
    (fun b => [hexChar (b / 16), hexChar (b % 16)])).flatten)

set_option maxRecDepth 10000 in
set_option maxHeartbeats 1000000 in
/-- Validation of the MD5 embedding against RFC 1321's first test vector. -/
lemma md5Hex_empty : md5Hex "" = "d41d8cd98f00b204e9800998ecf8427e" := by decide

set_option maxRecDepth 10000 in
set_option maxHeartbeats 1000000 in
/-- Validation of the MD5 embedding against RFC 1321's "abc" test vector. -/
lemma md5Hex_abc : md5Hex "abc" = "900150983cd24fb0d6963f7d28e17f72" := by decide

/-- Embedding of `generate_job_id`: its two impure clock reads (the
formatted seconds-resolution `timestamp`, and the `microsecond` value of
a second `datetime.now()` call) are parameters; the returned ID is
`job_<timestamp>_<first 8 hex chars of md5(f"{timestamp}_{microsecond}")>`. -/
def generate_job_id (timestamp : String) (microsecond : Nat) : String :=
  "job_" ++ timestamp ++ "_" ++ (md5Hex (timestamp ++ "_" ++ toString microsecond)).take 8

/-! ## Claim C6 -/

set_option maxRecDepth 10000 in
set_option maxHeartbeats 4000000 in
/-- C6 counterexample: two invocations within the wall-clock second
`20240129_143052`, reading the distinct microsecond values 8934 and
64007, produce the identical job ID `job_20240129_143052_bac3c453`,
because the two hash inputs collide on the first 8 hex characters of
their MD5 digests.  (Two invocations reading the same microsecond value
collide trivially.)  This refutes the claim that same-second invocations
always yield distinct IDs. -/
theorem C6_counterexample_same_second_collision :
    generate_job_id "20240129_143052" 8934 = generate_job_id "20240129_143052" 64007
    ∧ (8934 : Nat) ≠ 64007 := by
  constructor
  · decide
  · decide

/-- Left cancellation for string concatenation, via the data lists. -/
lemma string_append_cancel_left (p : String) {a b : String} (h : p ++ a = p ++ b) :
    a = b := by
  have hd := congrArg String.data h
  simp only [String.data_append] at hd
  exact String.ext (List.append_cancel_left hd)

/-- C6 (amended): two invocations of `generate_job_id` in the same
wall-clock second produce distinct job IDs exactly when the 8-character
truncated MD5 digests of their hash inputs differ; equal sub-second
readings always collide, and distinct ones collide exactly on a
truncated-digest collision. -/
theorem C6_same_second_ids_distinct_iff (ts : String) (m1 m2 : Nat) :
    generate_job_id ts m1 = generate_job_id ts m2 ↔
      (md5Hex (ts ++ "_" ++ toString m1)).take 8 =
        (md5Hex (ts ++ "_" ++ toString m2)).take 8 := by
  constructor
  · intro h
    exact string_append_cancel_left ("job_" ++ ts ++ "_") h
  · intro h
    unfold generate_job_id
    rw [h]

/-! ## Claim C4 -/

/-- C4: the generated command line contains the `--use_msa_server` flag
if and only if no entity of the request carries a usable pre-supplied
alignment reference in its `msa` field (where a blank value or the
sentinel string `"empty"` count as not carrying one).  The command is
computed by the pure function `buildCmd` of the request alone, fixed
before the external process is invoked. -/
theorem C4_msa_server_flag (req : BoltzRequest) :
    "--use_msa_server" ∈ buildCmd req ↔
      ∀ e ∈ req.sequences, carriesAlignmentReference e = false := by
  cases h : has_msa_files req <;>
    simp_all [buildCmd, has_msa_files, List.any_eq_true, List.any_eq_false]

/-! ## File retrieval endpoint (`get_job_file`) -/

/-- Abstraction of the disk as the endpoints observe it: which paths
exist (`Path.exists`), and what opening + JSON-parsing a file yields
(`json.load`), an `error` standing for a raised exception.  Paths are
segment lists (`jobs_dir / job_id / ...`). -/
structure FileSystem where
  pathExists : List String → Bool
  readJson : List String → Except String PyVal

/-- Outcome of an endpoint call: an `HTTPException(status, detail)` or a
JSON payload. -/
inductive EndpointResult where
  | httpError (status : Nat) (detail : String)
  | payload (v : PyVal)

/-- The three-filename allow-list of `get_job_file`. -/
def allowed_files : List String :=
  ["affinity_boltz_input.json", "confidence_boltz_input_model_0.json", "boltz_input.yaml"]

/-- The probe locations (`possible_paths`) for a filename, in order. -/
def candidatePaths (job_id filename : String) : List (List String) :=
  [["jobs", job_id, "boltz_output", filename],
   ["jobs", job_id, "boltz_output", "boltz_results_boltz_input", "predictions",
    "boltz_input", filename],
   ["jobs", job_id, filename]]

/-- Embedding of the `get_job_file` endpoint: 404 when the job directory
is missing, 403 for a filename outside the allow-list, 404 when no probe
location exists, 500 when the existing file fails to read/parse,
otherwise the parsed JSON. -/
def get_job_file (fs : FileSystem) (job_id filename : String) : EndpointResult :=
  if ¬ fs.pathExists ["jobs", job_id] then .httpError 404 "Trabalho não encontrado"
  else if filename ∉ allowed_files then .httpError 403 "Arquivo não permitido"
  else
    match (candidatePaths job_id filename).find? fs.pathExists with
    | Option.none => .httpError 404 "Arquivo não encontrado"
    | Option.some p =>
      match fs.readJson p with
      | .ok v => .payload v
      | .error e => .httpError 500 ("Falha ao ler arquivo: " ++ e)

/-! ## Claim C7 -/

/-- C7: for an existing job directory, `get_job_file` returns 403
whenever the filename is outside the three-item allow-list, and 404
whenever the filename is allow-listed but none of the probed candidate
paths exists on disk. -/
theorem C7_file_endpoint (fs : FileSystem) (job_id filename : String)
    (hjob : fs.pathExists ["jobs", job_id] = true) :
    (filename ∉ allowed_files →
      get_job_file fs job_id filename = .httpError 403 "Arquivo não permitido")
    ∧ (filename ∈ allowed_files →
      (∀ p ∈ candidatePaths job_id filename, fs.pathExists p = false) →
      get_job_file fs job_id filename = .httpError 404 "Arquivo não encontrado") := by
  constructor
  · intro hf
    simp [get_job_file, hjob, hf]
  · intro hf hnone
    have hfind : (candidatePaths job_id filename).find? fs.pathExists = Option.none :=
      List.find?_eq_none.mpr (fun p hp => by simp [hnone p hp])
    simp [get_job_file, hjob, hf, hfind]

/-- C7 witness: a disk holding only the job directory `jobs/job_a`; the
theorem yields 403 for a non-allow-listed name and 404 for an
allow-listed one that exists nowhere. -/
theorem C7_witness :
    (get_job_file
        { pathExists := fun p => p == ["jobs", "job_a"],
          readJson := fun _ => .error "io" } "job_a" "secret.txt" =
      .httpError 403 "Arquivo não permitido")
    ∧ (get_job_file
        { pathExists := fun p => p == ["jobs", "job_a"],
          readJson := fun _ => .error "io" } "job_a" "boltz_input.yaml" =
      .httpError 404 "Arquivo não encontrado") :=
  ⟨(C7_file_endpoint
      { pathExists := fun p => p == ["jobs", "job_a"], readJson := fun _ => .error "io" }
      "job_a" "secret.txt" (by decide)).1 (by decide),
   (C7_file_endpoint
      { pathExists := fun p => p == ["jobs", "job_a"], readJson := fun _ => .error "io" }
      "job_a" "boltz_input.yaml" (by decide)).2 (by decide) (by decide)⟩

/-! ## Job listing (`list_jobs`) -/

/-- On-disk state of one directory entry's metadata record as
`load_job_info` inside the `try` of `list_jobs` observes it: the record
file may be missing (`load_job_info` returns the falsy `{}`), may raise
on read/parse (caught, a warning logged, entry skipped), or may parse to
a JSON value. -/
inductive RecordState where
  | missing
  | unreadable
  | parsed (v : PyVal)

/-- One entry of `jobs_dir.iterdir()`. -/
structure DirEntry where
  name : String
  isDir : Bool
  record : RecordState

/-- What `list_jobs` appends for one matching entry: the loaded record
when it loads and is truthy (`if job_info:`), nothing otherwise. -/
def loadedInfo (e : DirEntry) : Option PyVal :=
  match e.record with
  | .missing => Option.none
  | .unreadable => Option.none
  | .parsed v => if pyTruthy v then Option.some v else Option.none

/-- Records whose sort key is a string: dicts whose `timestamp`, if
present, is a string (so that `x.get('timestamp','')` yields a `str`). -/
def wellKeyed (v : PyVal) : Bool :=
  match v with
  | .dict kvs =>
    match dictGet kvs "timestamp" with
    | Option.some (.str _) => true
    | Option.none => true
    | _ => false
  | _ => false

/-- Well-keyedness of whatever record a directory entry may contribute. -/
def entryWellKeyed (e : DirEntry) : Bool :=
  match e.record with
  | .parsed v => wellKeyed v
  | _ => true

/-- The test `job_dir.name.startswith("job_")`, on the character lists
(equivalent to `String.startsWith`, and evaluable by the kernel). -/
def nameIsJob (s : String) : Bool := "job_".data.isPrefixOf s.data

/-- The records `list_jobs` keeps, in directory order: the loaded,
truthy records of the directories named `job_*`. -/
def keptRecords (entries : List DirEntry) : List PyVal :=
  entries.filterMap (fun e =>
    if e.isDir && nameIsJob e.name then loadedInfo e else Option.none)

/-- Python `x.get('timestamp', '')` applied to one kept record: a dict
yields its stored `timestamp` value — whatever its type — or the
default `""` when the key is absent; any other object has no `get`
attribute, so the call raises an `AttributeError`. -/
def recordKey (v : PyVal) : Except String PyVal :=
  match v with
  | .dict kvs => .ok ((dictGet kvs "timestamp").getD (.str ""))
  | _ => .error "AttributeError: object has no attribute get"

/-- Key extraction for the decorate-sort-undecorate of
`jobs.sort(key=...)`: CPython computes every element's key before any
comparison, so the first kept record without a `get` attribute aborts
the whole sort — and with it the endpoint. -/
def decorateRecords : List PyVal → Except String (List (PyVal × PyVal))
  | [] => .ok []
  | v :: vs => do
    let k ← recordKey v
    let rest ← decorateRecords vs
    pure ((k, v) :: rest)

/-- One insertion step of the stable descending sort on key-decorated
records, comparing keys with Python `<` (`pyLt`): two strings compare
lexicographically, two numbers numerically, and a mixed pair raises a
`TypeError`, as in Python.  (On inputs with several incomparable pairs
the error surfaces in this insertion order rather than timsort's, but
every input with pairwise comparable keys sorts to the same stable
result, and sorting two incomparable keys fails in both.) -/
def insertByKey (x : PyVal × PyVal) :
    List (PyVal × PyVal) → Except String (List (PyVal × PyVal))
  | [] => .ok [x]
  | y :: ys => do
    let lt ← pyLt x.1 y.1
    if lt then do
      let r ← insertByKey x ys
      pure (y :: r)
    else pure (x :: y :: ys)

/-- The stable descending sort (`reverse=True`) of the decorated
records. -/
def sortByKey : List (PyVal × PyVal) → Except String (List (PyVal × PyVal))
  | [] => .ok []
  | x :: xs => do
    let s ← sortByKey xs
    insertByKey x s

/-- Embedding of `list_jobs`: keep the loaded, truthy records of the
`job_*` directories, then
`jobs.sort(key=lambda x: x.get('timestamp', ''), reverse=True)`:
extract every record's sort key and sort descending.  An `error` models
an exception escaping the endpoint (HTTP 500), which happens exactly
when key extraction or a key comparison raises. -/
def list_jobs (entries : List DirEntry) : Except String (List PyVal) :=
  (decorateRecords (keptRecords entries)).bind fun keyed =>
    (sortByKey keyed).bind fun sorted =>
      Except.ok (sorted.map Prod.snd)

/-! ### Proof-side apparatus for `list_jobs`.  `strKey` is a
specification-side abbreviation only: `recordKey` is proven to agree
with it on every `wellKeyed` record, and the model never uses it. -/

/-- The string key of a well-keyed record (agreement lemma:
`recordKey_of_wellKeyed`). -/
def strKey (v : PyVal) : String :=
  match v with
  | .dict kvs =>
    match dictGet kvs "timestamp" with
    | Option.some (.str s) => s
    | _ => ""
  | _ => ""

lemma strKey_dict (kvs : List (String × PyVal)) :
    strKey (.dict kvs) = (match dictGet kvs "timestamp" with
      | Option.some (.str s) => s
      | _ => "") := rfl

lemma wellKeyed_dict (kvs : List (String × PyVal)) :
    wellKeyed (.dict kvs) = (match dictGet kvs "timestamp" with
      | Option.some (.str _) => true
      | Option.none => true
      | _ => false) := rfl

lemma recordKey_of_wellKeyed {v : PyVal} (h : wellKeyed v = true) :
    recordKey v = .ok (.str (strKey v)) := by
  match v with
  | .pynone | .bool _ | .int _ | .float _ | .str _ | .list _ =>
    exact Bool.noConfusion h
  | .dict kvs =>
    rw [wellKeyed_dict] at h
    show Except.ok ((dictGet kvs "timestamp").getD (.str "")) =
      .ok (.str (strKey (.dict kvs)))
    rw [strKey_dict]
    match hts : dictGet kvs "timestamp" with
    | Option.some (.str s) => rfl
    | Option.none => rfl
    | Option.some .pynone | Option.some (.bool _) | Option.some (.int _)
    | Option.some (.float _) | Option.some (.list _) | Option.some (.dict _) =>
      rw [hts] at h
      exact Bool.noConfusion h

/-- The key a decorated pair carries (strings only, on the proof side). -/
def pairKey (p : PyVal × PyVal) : String :=
  match p.1 with
  | .str s => s
  | _ => ""

/-- The descending-by-key order on decorated pairs. -/
def keyDescRel (a b : PyVal × PyVal) : Prop := pairKey b ≤ pairKey a

instance : DecidableRel keyDescRel :=
  fun a b => inferInstanceAs (Decidable (pairKey b ≤ pairKey a))

lemma exceptBindOp_ok {ε α β : Type} (a : α) (f : α → Except ε β) :
    ((Except.ok a : Except ε α) >>= f) = f a := rfl

lemma exceptBindOp_error {ε α β : Type} (e : ε) (f : α → Except ε β) :
    ((Except.error e : Except ε α) >>= f) = .error e := rfl

lemma exceptPure_eq_ok {ε α : Type} (a : α) : (pure a : Except ε α) = .ok a := rfl

lemma pyLt_str (a b : String) : pyLt (.str a) (.str b) = .ok (decide (a < b)) := rfl

lemma pairKey_of_fst {p : PyVal × PyVal} {s : String} (h : p.1 = PyVal.str s) :
    pairKey p = s := by
  unfold pairKey
  rw [h]

lemma insertByKey_eq_orderedInsert :
    ∀ (l : List (PyVal × PyVal)), (∀ p ∈ l, ∃ s, p.1 = PyVal.str s) →
      ∀ (x : PyVal × PyVal) (sx : String), x.1 = PyVal.str sx →
      insertByKey x l = .ok (List.orderedInsert keyDescRel x l) := by
  intro l
  induction l with
  | nil => intro _ x sx hx; rfl
  | cons y ys ih =>
    intro hall x sx hx
    obtain ⟨sy, hy⟩ := hall y (List.mem_cons_self y ys)
    have hkx : pairKey x = sx := pairKey_of_fst hx
    have hky : pairKey y = sy := pairKey_of_fst hy
    simp only [insertByKey]
    rw [hx, hy, pyLt_str]
    by_cases hlt : sx < sy
    · have hns : ¬ sy ≤ sx := not_le.mpr hlt
      rw [ih (fun p hp => hall p (List.mem_cons_of_mem y hp)) x sx hx]
      simp [hlt, List.orderedInsert, keyDescRel, hkx, hky, hns, exceptBindOp_ok,
        exceptPure_eq_ok]
    · have hsy : sy ≤ sx := not_lt.mp hlt
      simp [hlt, List.orderedInsert, keyDescRel, hkx, hky, hsy, exceptBindOp_ok,
        exceptPure_eq_ok]

lemma sortByKey_eq_insertionSort :
    ∀ (l : List (PyVal × PyVal)), (∀ p ∈ l, ∃ s, p.1 = PyVal.str s) →
      sortByKey l = .ok (List.insertionSort keyDescRel l) := by
  intro l
  induction l with
  | nil => intro _; rfl
  | cons x xs ih =>
    intro hall
    obtain ⟨sx, hx⟩ := hall x (List.mem_cons_self x xs)
    simp only [sortByKey]
    rw [ih (fun p hp => hall p (List.mem_cons_of_mem x hp)), exceptBindOp_ok,
      insertByKey_eq_orderedInsert _ (fun p hp => hall p (List.mem_cons_of_mem x
        ((List.perm_insertionSort keyDescRel xs).mem_iff.mp hp))) x sx hx]
    rfl

lemma decorateRecords_of_wellKeyed :
    ∀ (l : List PyVal), (∀ v ∈ l, wellKeyed v = true) →
      decorateRecords l = .ok (l.map (fun v => (PyVal.str (strKey v), v))) := by
  intro l
  induction l with
  | nil => intro _; rfl
  | cons v vs ih =>
    intro hall
    simp only [decorateRecords]
    rw [recordKey_of_wellKeyed (hall v (List.mem_cons_self v vs)), exceptBindOp_ok,
      ih (fun w hw => hall w (List.mem_cons_of_mem v hw)), exceptBindOp_ok]
    rfl

lemma decorateRecords_error_of_mem :
    ∀ (l : List PyVal) (v : PyVal), v ∈ l → (∃ e, recordKey v = .error e) →
      ∃ msg, decorateRecords l = .error msg := by
  intro l
  induction l with
  | nil => intro v hv _; exact absurd hv (List.not_mem_nil v)
  | cons w ws ih =>
    rintro v hv ⟨e, he⟩
    match hk : recordKey w with
    | .error ew =>
      exact ⟨ew, by simp only [decorateRecords]; rw [hk, exceptBindOp_error]⟩
    | .ok k =>
      rcases List.mem_cons.mp hv with rfl | hv'
      · exact Except.noConfusion (he.symm.trans hk)
      · obtain ⟨msg, hmsg⟩ := ih v hv' ⟨e, he⟩
        exact ⟨msg, by
          simp only [decorateRecords]
          rw [hk, exceptBindOp_ok, hmsg, exceptBindOp_error]⟩

lemma mem_keptRecords {entries : List DirEntry} {v : PyVal} :
    v ∈ keptRecords entries ↔
      ∃ e ∈ entries, e.isDir = true ∧ nameIsJob e.name = true ∧
        e.record = .parsed v ∧ pyTruthy v = true := by
  unfold keptRecords
  rw [List.mem_filterMap]
  constructor
  · rintro ⟨e, he, hsome⟩
    by_cases hc : e.isDir && nameIsJob e.name
    · rw [if_pos hc] at hsome
      obtain ⟨hd, hn⟩ := Bool.and_eq_true_iff.mp hc
      refine ⟨e, he, hd, hn, ?_⟩
      unfold loadedInfo at hsome
      match hr : e.record with
      | .missing | .unreadable =>
        rw [hr] at hsome
        exact Option.noConfusion hsome
      | .parsed w =>
        rw [hr] at hsome
        replace hsome : (if pyTruthy w = true then Option.some w else Option.none) =
          Option.some v := hsome
        by_cases ht : pyTruthy w
        · rw [if_pos ht] at hsome
          cases hsome
          exact ⟨rfl, ht⟩
        · rw [if_neg ht] at hsome
          exact absurd hsome (by simp)
    · rw [if_neg hc] at hsome
      exact absurd hsome (by simp)
  · rintro ⟨e, he, hd, hn, hr, ht⟩
    refine ⟨e, he, ?_⟩
    rw [if_pos (by simp [hd, hn])]
    unfold loadedInfo
    rw [hr]
    show (if pyTruthy v = true then Option.some v else Option.none) = Option.some v
    rw [if_pos ht]

lemma map_snd_decorated (l : List PyVal) :
    (l.map (fun v => (PyVal.str (strKey v), v))).map Prod.snd = l := by
  induction l with
  | nil => rfl
  | cons v vs ih => simp [ih]

lemma list_jobs_of_wellKeyed {entries : List DirEntry}
    (hwk : ∀ v ∈ keptRecords entries, wellKeyed v = true) :
    list_jobs entries = .ok ((List.insertionSort keyDescRel
      ((keptRecords entries).map (fun v => (PyVal.str (strKey v), v)))).map Prod.snd) := by
  have hdec := decorateRecords_of_wellKeyed _ hwk
  have hstr : ∀ p ∈ (keptRecords entries).map (fun v => (PyVal.str (strKey v), v)),
      ∃ s, p.1 = PyVal.str s := by
    intro p hp
    obtain ⟨v, hv, rfl⟩ := List.mem_map.mp hp
    exact ⟨strKey v, rfl⟩
  have hsort := sortByKey_eq_insertionSort _ hstr
  unfold list_jobs
  simp only [hdec, exceptOk_bind, hsort]

/-! ## Claim C8 -/

/-- A jobs directory holding one job whose metadata file parses to the
truthy non-dict JSON value `"hello"`. -/
def sampleBadDir : List DirEntry :=
  [{ name := "job_x", isDir := true, record := .parsed (.str "hello") }]

/-- C8 counterexample: the record `"hello"` is not missing, not empty
and parses fine, so `list_jobs` keeps it; but the sort key
`x.get('timestamp','')` has no meaning on a string, so the listing —
which the claim says is only ever trimmed, never aborted — raises an
`AttributeError` and the whole endpoint fails. -/
theorem C8_counterexample_nondict_record :
    list_jobs sampleBadDir = .error "AttributeError: object has no attribute get" := rfl

/-- C8 (amended): `list_jobs` keeps exactly the truthy, parseable
records of the `job_`-prefixed subdirectories — a missing, unparseable
or empty record skips only its own entry — and, provided every kept
record is a dict whose `timestamp`, if present, is a string, the
listing succeeds and returns them ordered by their creation timestamps,
newest first.  A kept record that is a truthy non-dict value, however,
makes the sort key extraction `x.get('timestamp','')` raise an
`AttributeError` that aborts the whole listing. -/
theorem C8_list_jobs_enumeration (entries : List DirEntry) :
    ((∀ e ∈ entries, entryWellKeyed e = true) →
      ∃ out, list_jobs entries = .ok out
        ∧ (∀ v, v ∈ out ↔ ∃ e ∈ entries, e.isDir = true ∧ nameIsJob e.name = true ∧
            e.record = .parsed v ∧ pyTruthy v = true)
        ∧ out.Pairwise (fun a b => ∃ ka kb, recordKey a = .ok (.str ka) ∧
            recordKey b = .ok (.str kb) ∧ kb ≤ ka))
    ∧ (∀ (v : PyVal) (e : DirEntry), e ∈ entries → e.isDir = true →
        nameIsJob e.name = true → e.record = .parsed v → pyTruthy v = true →
        v.isDict = false → ∃ msg, list_jobs entries = .error msg) := by
  constructor
  · intro hw
    have hwk : ∀ v ∈ keptRecords entries, wellKeyed v = true := by
      intro v hv
      obtain ⟨e, he, hd, hn, hr, ht⟩ := mem_keptRecords.mp hv
      have hewk := hw e he
      unfold entryWellKeyed at hewk
      rw [hr] at hewk
      exact hewk
    refine ⟨_, list_jobs_of_wellKeyed hwk, ?_, ?_⟩
    · intro v
      have hperm := (List.perm_insertionSort keyDescRel
        ((keptRecords entries).map (fun w => (PyVal.str (strKey w), w)))).map Prod.snd
      rw [hperm.mem_iff, map_snd_decorated, mem_keptRecords]
    · haveI : IsTotal (PyVal × PyVal) keyDescRel :=
        ⟨fun a b => le_total (pairKey b) (pairKey a)⟩
      haveI : IsTrans (PyVal × PyVal) keyDescRel :=
        ⟨fun a b c hab hbc => le_trans hbc hab⟩
      have hsorted := List.sorted_insertionSort keyDescRel
        ((keptRecords entries).map (fun w => (PyVal.str (strKey w), w)))
      have hmem : ∀ p ∈ List.insertionSort keyDescRel
          ((keptRecords entries).map (fun w => (PyVal.str (strKey w), w))),
          ∃ w, p = (PyVal.str (strKey w), w) ∧ wellKeyed w = true := by
        intro p hp
        have hp' := (List.perm_insertionSort keyDescRel _).mem_iff.mp hp
        obtain ⟨w, hw', rfl⟩ := List.mem_map.mp hp'
        exact ⟨w, rfl, hwk w hw'⟩
      rw [List.pairwise_map]
      refine hsorted.imp_of_mem ?_
      intro a b ha hb hr
      obtain ⟨wa, rfl, hwa⟩ := hmem a ha
      obtain ⟨wb, rfl, hwb⟩ := hmem b hb
      refine ⟨strKey wa, strKey wb, recordKey_of_wellKeyed hwa,
        recordKey_of_wellKeyed hwb, ?_⟩
      simpa [keyDescRel, pairKey] using hr
  · intro v e he hd hn hr ht hnd
    have hv : v ∈ keptRecords entries := mem_keptRecords.mpr ⟨e, he, hd, hn, hr, ht⟩
    have herr : ∃ er, recordKey v = .error er := by
      match v, hnd with
      | .pynone, _ | .bool _, _ | .int _, _ | .float _, _ | .str _, _ | .list _, _ =>
        exact ⟨_, rfl⟩
      | .dict kvs, hnd => exact Bool.noConfusion hnd
    obtain ⟨msg, hmsg⟩ := decorateRecords_error_of_mem _ v hv herr
    refine ⟨msg, ?_⟩
    unfold list_jobs
    rw [hmsg]
    rfl

/-- A jobs directory holding two good jobs (timestamps out of order),
one job with a missing record, and a non-job directory. -/
def sampleJobsDir : List DirEntry :=
  [{ name := "job_b", isDir := true,
     record := .parsed (.dict [("timestamp", .str "2024-01-02")]) },
   { name := "job_a", isDir := true,
     record := .parsed (.dict [("timestamp", .str "2024-01-03")]) },
   { name := "job_c", isDir := true, record := .missing },
   { name := "data", isDir := true, record := .parsed (.dict [("x", .int 1)]) }]

/-- C8 witness: the amended theorem applied, on its success side, to a
directory of well-keyed jobs, and, on its abort side, to the directory
whose kept record is the string `"hello"`. -/
theorem C8_witness :
    (∃ out, list_jobs sampleJobsDir = .ok out
      ∧ (∀ v, v ∈ out ↔ ∃ e ∈ sampleJobsDir, e.isDir = true ∧ nameIsJob e.name = true ∧
          e.record = .parsed v ∧ pyTruthy v = true)
      ∧ out.Pairwise (fun a b => ∃ ka kb, recordKey a = .ok (.str ka) ∧
          recordKey b = .ok (.str kb) ∧ kb ≤ ka))
    ∧ (∃ msg, list_jobs sampleBadDir = .error msg) :=
  ⟨(C8_list_jobs_enumeration sampleJobsDir).1 (by decide),
   (C8_list_jobs_enumeration sampleBadDir).2 (.str "hello")
     { name := "job_x", isDir := true, record := .parsed (.str "hello") }
     (List.Mem.head _) rfl (by decide) rfl (by decide) rfl⟩

/-! ## The `/predict` handler (`predict_boltz`)

The handler is embedded from the point where the YAML document has been
written.  Its remaining impure inputs become parameters: the generated
job id, the creation timestamp, the completion-time reading, and the
outcome of `subprocess.run` (normal exit, `TimeoutExpired`, or some
other exception).  The textual `yaml_content` field of the response is a
pure rendering of the document already modelled structurally by
`entityFields`/`serializeConstraints` and is outside the model's scope. -/

/-- Outcome of the `subprocess.run` call. -/
inductive ProcOutcome where
  | exited (code : Int) (stdout stderr : String)
  | timedOut
  | raised (msg : String)

/-- The `PredictionResponse` model (sans the rendered `yaml_content`). -/
structure PredictionResponse where
  success : Bool
  message : String
  output : String := ""
  job_id : String := ""
  job_dir : String := ""
  timestamp : String := ""

/-- The metadata record `job_info` as written by `save_job_info` at each
checkpoint; optional fields are the keys that `job_info.update` may add
later. -/
structure JobInfoRec where
  job_id : String
  timestamp : String
  status : String
  entities : List PyVal
  has_affinity : Bool
  job_dir : String
  yaml_file : String
  output_dir : String
  command : String
  job_name : Option String := Option.none
  completion_time : Option String := Option.none
  stdout : Option String := Option.none
  stderr : Option String := Option.none
  return_code : Option Int := Option.none
  error : Option String := Option.none

/-- The `entities_summary` item for one entity:
`seq.id if isinstance(seq.id, str) else seq.id[0]` raises an
`IndexError` when the id list is empty; truthy `sequence`, `smiles`,
`ccd` contribute `sequence_length`, `smiles`, `ccd` keys. -/
def entitySummary (e : SequenceEntity) : Except String PyVal := do
  let idv ← match e.id with
    | .inl s => Except.ok (PyVal.str s)
    | .inr (x :: _) => Except.ok (PyVal.str x)
    | .inr [] => Except.error "IndexError: list index out of range"
  Except.ok (.dict
    ([("type", .str e.entity_type), ("id", idv)]
      ++ (match e.sequence with
          | Option.some s => if s ≠ "" then [("sequence_length", .int s.length)] else []
          | Option.none => [])
      ++ (match e.smiles with
          | Option.some s => if s ≠ "" then [("smiles", .str s)] else []
          | Option.none => [])
      ++ (match e.ccd with
          | Option.some s => if s ≠ "" then [("ccd", .str s)] else []
          | Option.none => [])))

/-- The summaries of all entities, failing on the first bad id. -/
def entitySummaries (es : List SequenceEntity) : Except String (List PyVal) :=
  es.mapM entitySummary

/-- The flag `bool(request.properties and any(p.affinity for p in ...))`. -/
def hasAffinity (req : BoltzRequest) : Bool :=
  match req.properties with
  | Option.some ps => ps.any (fun p => p.affinity.isSome)
  | Option.none => false

/-- The `job_name` key, added only when `if request.job_name:` is truthy. -/
def jobNameField (jn : Option String) : Option String :=
  match jn with
  | Option.some s => if s ≠ "" then Option.some s else Option.none
  | Option.none => Option.none

/-- The initial `job_info` dict of the handler (status `running`,
command still empty). -/
def initialInfo (req : BoltzRequest) (job_id ts : String) (summaries : List PyVal) :
    JobInfoRec :=
  { job_id := job_id, timestamp := ts, status := "running",
    entities := summaries,
    has_affinity := hasAffinity req,
    job_dir := "jobs/" ++ job_id,
    yaml_file := "jobs/" ++ job_id ++ "/boltz_input.yaml",
    output_dir := "jobs/" ++ job_id ++ "/boltz_output",
    command := "",
    job_name := jobNameField req.job_name }

/-- The handler's behavior once `job_info` is bound: save the running
record, save it again with the command filled in, run the process, and
save + answer one of the four terminal outcomes in-band. -/
def predictCore (req : BoltzRequest) (job_id ts now : String) (summaries : List PyVal)
    (proc : ProcOutcome) : Except String PredictionResponse × List JobInfoRec :=
  let job_dir := "jobs/" ++ job_id
  let info0 := initialInfo req job_id ts summaries
  let info1 := { info0 with command := String.intercalate " " (buildCmd req) }
  match proc with
  | .exited code out err =>
      if code = 0 then
        let fin := { info1 with
          status := "completed"
          completion_time := Option.some now
          stdout := Option.some out
          stderr := Option.some err }
        (.ok { success := true,
               message := "Predição concluída com sucesso! Job ID: " ++ job_id,
               output := out, job_id := job_id, job_dir := job_dir, timestamp := ts },
         [info0, info1, fin])
      else
        let fin := { info1 with
          status := "failed"
          completion_time := Option.some now
          stdout := Option.some out
          stderr := Option.some err
          return_code := Option.some code }
        (.ok { success := false,
               message := "Predição falhou com código " ++ toString code
                 ++ ". Job ID: " ++ job_id,
               output := "STDOUT:\n" ++ out ++ "\n\nSTDERR:\n" ++ err,
               job_id := job_id, job_dir := job_dir, timestamp := ts },
         [info0, info1, fin])
  | .timedOut =>
    let fin := { info1 with
      status := "timeout"
      completion_time := Option.some now
      error := Option.some "Predição excedeu tempo limite de 10 minutos" }
    (.ok { success := false,
           message := "Predição excedeu tempo limite. Job ID: " ++ job_id,
           output := "O processo demorou muito e foi interrompido.",
           job_id := job_id, job_dir := job_dir, timestamp := ts },
     [info0, info1, fin])
  | .raised msg =>
    let fin := { info1 with
      status := "error"
      completion_time := Option.some now
      error := Option.some msg }
    (.ok { success := false,
           message := "Erro inesperado: " ++ msg ++ ". Job ID: " ++ job_id,
           output := "", job_id := job_id, job_dir := job_dir, timestamp := ts },
     [info0, info1, fin])

/-- Embedding of `predict_boltz` from the job-initialization point: the
result is the handler's outcome — `ok response` for the four in-band
terminations, `error` for an exception escaping the handler (FastAPI
then answers 500) — paired with the list of metadata records passed to
`save_job_info`, in order.  When `entities_summary` raises (empty id
list), control reaches `except Exception` *before* `job_info` is bound,
so `job_info.update(...)` in the handler raises `UnboundLocalError`: the
embedding returns `error` and an empty record list. -/
def predict_boltz (req : BoltzRequest) (job_id ts now : String) (proc : ProcOutcome) :
    Except String PredictionResponse × List JobInfoRec :=
  match entitySummaries req.sequences with
  | .error e =>
    (.error ("UnboundLocalError: job_info (while handling " ++ e ++ ")"), [])
  | .ok summaries => predictCore req job_id ts now summaries proc

/-! ## Claim C1 -/

/-- C1 (code bug): a request whose entity has an *empty id list* —
accepted by the Pydantic validation, since `id: Union[str, List[str]]`
admits `[]` — makes `seq.id[0]` raise an `IndexError` inside the `try`
block before `job_info` is assigned; the `except Exception` handler then
evaluates `job_info.update(...)` and itself raises `UnboundLocalError`,
which escapes the handler, so FastAPI answers 500 instead of the claimed
in-band `success=false` response.  Whatever the process outcome would
have been, the handler's result is an escaped exception. -/
theorem C1_unhandled_exception_on_empty_id (proc : ProcOutcome) :
    (predict_boltz { sequences := [{ entity_type := "protein", id := Sum.inr [] }] }
        "job_x" "t0" "t1" proc).fst =
      .error
        "UnboundLocalError: job_info (while handling IndexError: list index out of range)" := by
  cases proc <;> rfl

/-! ## Claim C9 -/

/-- C9: every metadata record the handler saves carries the error-detail
key exactly when its status is `timeout` or `error`; the `running`,
`completed` and `failed` records never carry it. -/
theorem C9_error_detail_iff_status (req : BoltzRequest) (job_id ts now : String)
    (proc : ProcOutcome) :
    ∀ rec ∈ (predict_boltz req job_id ts now proc).snd,
      (rec.error.isSome ↔ (rec.status = "timeout" ∨ rec.status = "error")) := by
  intro rec hrec
  match hse : entitySummaries req.sequences with
  | .error e =>
    have hnil : (predict_boltz req job_id ts now proc).snd = [] := by
      unfold predict_boltz
      rw [hse]
    rw [hnil] at hrec
    exact absurd hrec (List.not_mem_nil rec)
  | .ok summaries =>
    have hcore : (predict_boltz req job_id ts now proc).snd =
        (predictCore req job_id ts now summaries proc).snd := by
      unfold predict_boltz
      rw [hse]
    rw [hcore] at hrec
    cases proc with
    | exited code out err =>
      by_cases hc : code = 0 <;>
        simp [predictCore, hc] at hrec <;>
        rcases hrec with rfl | rfl | rfl <;> simp [initialInfo]
    | timedOut =>
      simp [predictCore] at hrec
      rcases hrec with rfl | rfl | rfl <;> simp [initialInfo]
    | raised msg =>
      simp [predictCore] at hrec
      rcases hrec with rfl | rfl | rfl <;> simp [initialInfo]

/-- The first metadata record (status `running`, command still empty)
saved for a one-protein request with job id `j` created at `t`. -/
def sampleRunningRec : JobInfoRec :=
  { job_id := "j"
    timestamp := "t"
    status := "running"
    entities := [.dict [("type", .str "protein"), ("id", .str "A")]]
    has_affinity := false
    job_dir := "jobs/j"
    yaml_file := "jobs/j/boltz_input.yaml"
    output_dir := "jobs/j/boltz_output"
    command := "" }

/-- C9 witness: the theorem applied to the first record (status
`running`, no error detail) saved for a one-protein request that times
out. -/
theorem C9_witness :
    (sampleRunningRec.error.isSome ↔
      (sampleRunningRec.status = "timeout" ∨ sampleRunningRec.status = "error")) :=
  C9_error_detail_iff_status
    { sequences := [{ entity_type := "protein", id := Sum.inl "A" }] }
    "j" "t" "n" .timedOut _ (List.Mem.head _)

end BoltzApp
